import Mathlib

/-!
Verification of the NTDS.dit extraction core of `dissect.target`
(`dissect/target/plugins/os/windows/ntds/crypto.py` and `ntds.py`).

Bytes are modelled as `Nat` (values < 256 where relevant), byte strings as
`List Nat`. The external cryptographic primitives (MD5, RC4, a single AES or
DES block decryption) are uninterpreted function parameters; everything the
repository itself computes (CBC chaining, per-block IV reset, PKCS#7
unpadding, header parsing, the PEK-list decode loops, the secret-decryption
dispatch, the schema build) is modelled from the source. Python exceptions
are modelled with `Except PyErr`; a `.error` result means the Python code
raises at that point.
-/

/-- Python exception kinds that the modelled code can raise. -/
inductive PyErr where
  | valueError
  | structError
  | eofError
  | indexError
  | typeError
  | attributeError
  | nameError
  deriving DecidableEq, Repr

/-- Decidable equality for `Except` results, used to evaluate the models on
concrete inputs. -/
instance {e a : Type} [DecidableEq e] [DecidableEq a] : DecidableEq (Except e a) := fun x y =>
  match x, y with
  | .ok v, .ok w => if h : v = w then .isTrue (by rw [h]) else .isFalse (by simp [h])
  | .error v, .error w => if h : v = w then .isTrue (by rw [h]) else .isFalse (by simp [h])
  | .ok _, .error _ => .isFalse (fun h => Except.noConfusion h)
  | .error _, .ok _ => .isFalse (fun h => Except.noConfusion h)

/-- Little-endian interpretation of a byte list (`struct.unpack` of "<H"/"<L"
on the given slice). -/
def fromLE (l : List Nat) : Nat :=
  l.foldr (fun b acc => b + 256 * acc) 0

/-- Little-endian 4-byte encoding of a natural number below 2^32
(`struct.pack("<L", n)`). -/
def toLE4 (n : Nat) : List Nat :=
  [n % 256, n / 256 % 256, n / 65536 % 256, n / 16777216 % 256]

/-- Signed little-endian interpretation of a 4-byte slice
(`struct.unpack("<i", ...)`). -/
def sintLE4 (l : List Nat) : Int :=
  let u := fromLE l
  if u < 2 ^ 31 then (u : Int) else (u : Int) - 2 ^ 32

/-- Lower-case hex digit for a value below 16. -/
def hexChar (n : Nat) : Char :=
  "0123456789abcdef".toList.getD n 'x'

/-- Two lower-case hex characters of one byte. -/
def hexByte (b : Nat) : List Char :=
  [hexChar (b / 16), hexChar (b % 16)]

/-- `binascii.hexlify(data).decode()`: lower-case hex string of a byte list. -/
def hexStr (l : List Nat) : String :=
  String.mk (l.map hexByte).flatten

/-- The all-zero 16-byte block (default IV of `decryptAES`). -/
def zeros16 : List Nat :=
  List.replicate 16 0

/-- Fuel-driven helper of `blocks16`; the fuel is the list length, which
bounds the number of 16-byte steps. -/
def blocks16Aux : Nat → List Nat → List (List Nat)
  | 0, _ => []
  | _, [] => []
  | fuel + 1, v =>
      (v.take 16 ++ List.replicate (16 - (v.take 16).length) 0) :: blocks16Aux fuel (v.drop 16)

/-- Split a byte string into 16-byte blocks, zero-padding a short final
block, as the loop of `decryptAES` does
(`value[index : index + 16]` plus `b"\x00"` padding). -/
def blocks16 (v : List Nat) : List (List Nat) :=
  blocks16Aux v.length v

/-- One pass of the decryption loop of `decryptAES` (crypto.py lines
160-167): `ivIsZero` is the `iv == b"\x00"*16` test.  When it holds, the AES
context is re-created with the zero IV on every iteration, so each block is
XOR-ed against zeros; otherwise a single CBC context chains the previous
ciphertext block. -/
def aesLoop (dec : List Nat → List Nat) (ivIsZero : Bool) : List Nat → List (List Nat) → List Nat
  | _, [] => []
  | prev, b :: bs =>
      List.zipWith Nat.xor (dec b) (if ivIsZero then zeros16 else prev) ++ aesLoop dec ivIsZero b bs

/-- `Crypto.Util.Padding.unpad(data, 16)`: `none` models the `ValueError`
raised on invalid PKCS#7 padding. -/
def unpadPKCS7 (data : List Nat) : Option (List Nat) :=
  if data.length = 0 then none
  else if data.length % 16 ≠ 0 then none
  else
    let padLen := data.getLastD 0
    if 1 ≤ padLen ∧ padLen ≤ 16 ∧ data.drop (data.length - padLen) = List.replicate padLen padLen
    then some (data.take (data.length - padLen))
    else none

/-- `decryptAES(key, value, iv)` from crypto.py, with `dec` the raw AES-CBC
single-block decryption under the key.  Decrypts the 16-byte blocks (per-block
context reset when the IV is all zero, one chained context otherwise), then
attempts a PKCS#7 unpad and returns the raw plaintext when unpadding fails. -/
def decryptAES (dec : List Nat → List Nat) (value : List Nat) (iv : List Nat) : List Nat :=
  let plainText := aesLoop dec (iv == zeros16) iv (blocks16 value)
  match unpadPKCS7 plainText with
  | some unpadded => unpadded
  | none => plainText

/-- Textbook AES-CBC decryption of a block sequence: block `i` is the raw
decryption of cipher block `i` XOR-ed with cipher block `i-1` (the IV for the
first block). Stated from the specification's words for comparison with
`decryptAES`. -/
def cbcDecrypt (dec : List Nat → List Nat) (iv : List Nat) (blocks : List (List Nat)) : List Nat :=
  ((blocks.zip (iv :: blocks)).map (fun p => List.zipWith Nat.xor (dec p.1) p.2)).flatten

/-- Modelled from the spec's AES-helper paragraph: if the IV is all-zero,
each 16-byte block is decrypted by an independently re-initialised zero-IV
CBC context; otherwise the whole value is one CBC stream under the given IV;
a short final block is zero-padded; the result is PKCS#7-unpadded when the
padding is valid and returned raw otherwise. -/
def decryptAESSpec (dec : List Nat → List Nat) (value : List Nat) (iv : List Nat) : List Nat :=
  let bs := blocks16 value
  let plainText :=
    if iv = zeros16 then (bs.map (fun b => cbcDecrypt dec zeros16 [b])).flatten
    else cbcDecrypt dec iv bs
  match unpadPKCS7 plainText with
  | some unpadded => unpadded
  | none => plainText

/-- Parse of the `PEKLIST_ENC` cstruct: 8-byte header, 16 bytes of key
material, the rest is the encrypted PEK blob; `none` models the parse error
on fewer than 24 bytes. -/
def parsePEKLIST_ENC (raw : List Nat) : Option (List Nat × List Nat × List Nat) :=
  if 24 ≤ raw.length then some (raw.take 8, (raw.drop 8).take 16, raw.drop 24) else none

/-- Parse of the `PEKLIST_PLAIN` cstruct: 32-byte header, the rest is the
decrypted PEK data; `none` models the parse error on fewer than 32 bytes. -/
def parsePEKLIST_PLAIN (raw : List Nat) : Option (List Nat × List Nat) :=
  if 32 ≤ raw.length then some (raw.take 32, raw.drop 32) else none

/-- The `Key` field of a 20-byte `PEK_KEY` block (1 header byte, 3 padding
bytes, 16 key bytes). -/
def PEK_KEY_Key (block : List Nat) : List Nat :=
  (block.drop 4).take 16

/-- Scheme A key extraction (crypto.py lines 191-196): for each index below
`len // 20`, parse the 20-byte slice at the cursor as a `PEK_KEY` and keep
its `Key` field. -/
def schemeAKeys (decryptedPek : List Nat) : List (List Nat) :=
  (List.range (decryptedPek.length / 20)).map
    (fun i => PEK_KEY_Key ((decryptedPek.drop (i * 20)).take 20))

/-- Fuel-driven helper of `schemeBLoop`; the fuel is the remaining length,
which bounds the number of 20-byte entries. -/
def schemeBLoopAux : Nat → List Nat → Nat → List (List Nat)
  | 0, _, _ => []
  | fuel + 1, dec, curIndex =>
      if dec.length < 20 then []
      else if fromLE (dec.take 4) ≠ curIndex then []
      else (dec.drop 4).take 16 :: schemeBLoopAux fuel (dec.drop 20) (curIndex + 1)

/-- Scheme B decode loop (crypto.py lines 215-226): consume 20-byte entries
`{u32 index_LE; u8 key[16]}` while the index equals the running counter;
stop on fewer than 20 remaining bytes or on a non-sequential index. -/
def schemeBLoop (dec : List Nat) (curIndex : Nat) : List (List Nat) :=
  schemeBLoopAux dec.length dec curIndex

/-- `PEK_LIST.__init__(rawEncPekList, bootKey)` from crypto.py, returning the
`plainPekList` it builds; `md5` is the digest of the concatenated stream fed
to `hashlib`, `rc4 key data` the ARC4 keystream application, `aesDec key
block` the raw AES block decryption.  `none` models a raised exception. -/
def PEK_LIST_init (md5 : List Nat → List Nat) (rc4 : List Nat → List Nat → List Nat)
    (aesDec : List Nat → List Nat → List Nat)
    (rawEncPekList bootKey : List Nat) : Option (List (List Nat)) :=
  match parsePEKLIST_ENC rawEncPekList with
  | none => none
  | some (hdr, keyMaterial, encryptedPek) =>
    if hdr.take 4 = [2, 0, 0, 0] then
      let tmpKey := md5 (bootKey ++ (List.replicate 1000 keyMaterial).flatten)
      match parsePEKLIST_PLAIN (rc4 tmpKey encryptedPek) with
      | none => none
      | some (_, decryptedPek) => some (schemeAKeys decryptedPek)
    else if hdr.take 4 = [3, 0, 0, 0] then
      match parsePEKLIST_PLAIN (decryptAES (aesDec bootKey) encryptedPek keyMaterial) with
      | none => none
      | some (_, decryptedPek) => some (schemeBLoop decryptedPek 0)
    else
      some []

theorem aesLoop_zeroIV (dec : List Nat → List Nat) (bs : List (List Nat)) :
    ∀ prev, aesLoop dec true prev bs = (bs.map (fun b => cbcDecrypt dec zeros16 [b])).flatten := by
  induction bs with
  | nil => intro prev; rfl
  | cons b bs ih => intro prev; simp [aesLoop, cbcDecrypt, ih]

theorem aesLoop_chain (dec : List Nat → List Nat) (bs : List (List Nat)) :
    ∀ prev, aesLoop dec false prev bs = cbcDecrypt dec prev bs := by
  induction bs with
  | nil => intro prev; rfl
  | cons b bs ih => intro prev; simp [aesLoop, cbcDecrypt, ih]

/-- Claim C9: `decrypt_aes` decrypts each 16-byte block with a freshly
re-initialised zero-IV CBC context when the IV is all-zero, decrypts the
whole value as one CBC stream when the IV is non-zero, zero-pads a short
final block before decryption, and PKCS#7-unpads the result when valid
padding is present, returning it raw otherwise. -/
theorem C9_decryptAES_matches_spec (dec : List Nat → List Nat) (value iv : List Nat) :
    decryptAES dec value iv = decryptAESSpec dec value iv := by
  simp only [decryptAES, decryptAESSpec]
  by_cases h : iv = zeros16
  · have hb : (iv == zeros16) = true := by simp [h]
    rw [hb, if_pos h, aesLoop_zeroIV]
  · have hb : (iv == zeros16) = false := by simp [h]
    rw [hb, if_neg h, aesLoop_chain]

/-- Claim C10: a PEK blob that parses as the `{header[8]; key_material[16];
encrypted_pek[]}` layout but whose first four header bytes are neither
`02 00 00 00` nor `03 00 00 00` makes `PEK_LIST.__init__` succeed with an
empty `plainPekList`, attempting no decryption (the result does not depend
on the crypto primitives). -/
theorem C10_unknown_header_empty_list (md5 : List Nat → List Nat)
    (rc4 aesDec : List Nat → List Nat → List Nat) (raw bootKey : List Nat)
    (h24 : 24 ≤ raw.length) (h2 : raw.take 4 ≠ [2, 0, 0, 0]) (h3 : raw.take 4 ≠ [3, 0, 0, 0]) :
    PEK_LIST_init md5 rc4 aesDec raw bootKey = some [] := by
  have ht : (raw.take 8).take 4 = raw.take 4 := by
    rw [List.take_take]
    norm_num
  simp only [PEK_LIST_init, parsePEKLIST_ENC, if_pos h24]
  rw [ht, if_neg h2, if_neg h3]

theorem C10_witness :
    24 ≤ (List.replicate 24 9).length ∧ (List.replicate 24 9).take 4 ≠ [2, 0, 0, 0] ∧
      (List.replicate 24 9).take 4 ≠ [3, 0, 0, 0] ∧
      PEK_LIST_init (fun _ => []) (fun _ d => d) (fun _ b => b) (List.replicate 24 9) [] = some [] :=
  ⟨by decide, by decide, by decide,
    C10_unknown_header_empty_list _ _ _ _ _ (by decide) (by decide) (by decide)⟩

/-- Split into full 20-byte blocks, discarding a trailing partial block;
the fuel is the list length. -/
def chunk20Full : Nat → List Nat → List (List Nat)
  | 0, _ => []
  | fuel + 1, l => if l.length < 20 then [] else l.take 20 :: chunk20Full fuel (l.drop 20)

/-- Modelled from the spec: split `decrypted_pek` into 20-byte blocks, each
`{u8 padding[4]; u8 key[16]}`, and append `key` to the PEK list for every
full block, ignoring the leading 4 bytes and any trailing partial block. -/
def schemeASpecKeys (decryptedPek : List Nat) : List (List Nat) :=
  (chunk20Full decryptedPek.length decryptedPek).map (fun b => (b.drop 4).take 16)

theorem chunkRange : ∀ (fuel : Nat) (l : List Nat), l.length ≤ fuel →
    (List.range (l.length / 20)).map (fun i => (l.drop (i * 20)).take 20) = chunk20Full fuel l := by
  intro fuel
  induction fuel with
  | zero =>
    intro l hl
    have h0 : l.length = 0 := Nat.le_zero.mp hl
    simp [chunk20Full, h0]
  | succ f ih =>
    intro l hl
    by_cases h : l.length < 20
    · rw [Nat.div_eq_of_lt h]
      simp [chunk20Full, h]
    · push_neg at h
      have hdiv : l.length / 20 = (l.length - 20) / 20 + 1 := by omega
      have hlen20 : (l.drop 20).length = l.length - 20 := by simp
      have ihd := ih (l.drop 20) (by rw [hlen20]; omega)
      rw [hlen20] at ihd
      rw [hdiv, List.range_succ_eq_map, List.map_cons, List.map_map]
      simp only [chunk20Full, if_neg (Nat.not_lt.mpr h)]
      congr 1
      rw [← ihd]
      apply List.map_congr_left
      intro i _
      have h20 : Nat.succ i * 20 = 20 + i * 20 := by
        simp [Nat.succ_eq_add_one]
        ring
      simp only [Function.comp, h20, List.drop_drop]

theorem schemeAKeys_eq_spec (dec : List Nat) : schemeAKeys dec = schemeASpecKeys dec := by
  unfold schemeAKeys schemeASpecKeys
  rw [← chunkRange dec.length dec le_rfl, List.map_map]
  rfl

/-- Claim C8 (Scheme A, header `02 00 00 00`): the RC4 key is the MD5 digest
of the boot key followed by exactly 1000 updates of the 16-byte key
material; after RC4 decryption a 32-byte header is skipped and the remainder
is split into 20-byte blocks, appending the last 16 bytes of every full
block and discarding a trailing partial block. -/
theorem C8_schemeA_pipeline (md5 : List Nat → List Nat)
    (rc4 aesDec : List Nat → List Nat → List Nat) (hdr km encPek bootKey : List Nat)
    (h8 : hdr.length = 8) (h2hdr : hdr.take 4 = [2, 0, 0, 0]) (h16 : km.length = 16)
    (hlen : 32 ≤ (rc4 (md5 (bootKey ++ (List.replicate 1000 km).flatten)) encPek).length) :
    PEK_LIST_init md5 rc4 aesDec (hdr ++ km ++ encPek) bootKey =
      some (schemeASpecKeys
        ((rc4 (md5 (bootKey ++ (List.replicate 1000 km).flatten)) encPek).drop 32)) := by
  have hlen24 : 24 ≤ (hdr ++ km ++ encPek).length := by
    simp [h8, h16]
    omega
  have hc1 : (hdr ++ km ++ encPek).take 8 = hdr := by
    rw [List.append_assoc, List.take_left' h8]
  have hc2 : ((hdr ++ km ++ encPek).drop 8).take 16 = km := by
    rw [List.append_assoc, List.drop_left' h8, List.take_left' h16]
  have hc3 : (hdr ++ km ++ encPek).drop 24 = encPek := by
    rw [List.append_assoc, show (24 : Nat) = hdr.length + 16 by rw [h8], List.drop_append,
      List.drop_left' h16]
  simp only [PEK_LIST_init, parsePEKLIST_ENC, if_pos hlen24]
  rw [hc1, hc2, hc3, if_pos h2hdr]
  simp only [parsePEKLIST_PLAIN, if_pos hlen]
  rw [schemeAKeys_eq_spec]

/-- Identity stand-ins for the uninterpreted crypto primitives, used to
instantiate witnesses on concrete inputs. -/
def idRc4 : List Nat → List Nat → List Nat := fun _ data => data

def idAes : List Nat → List Nat → List Nat := fun _ block => block

def constMd5 : List Nat → List Nat := fun _ => List.replicate 16 1

theorem C8_schemeA_pipeline_witness :
    ([2, 0, 0, 0, 0, 0, 0, 0] : List Nat).length = 8 ∧
      ([2, 0, 0, 0, 0, 0, 0, 0] : List Nat).take 4 = [2, 0, 0, 0] ∧
      (List.replicate 16 17 : List Nat).length = 16 ∧
      32 ≤ (idRc4 (constMd5 ([] ++ (List.replicate 1000 (List.replicate 16 17)).flatten))
        (List.replicate 52 7)).length ∧
      PEK_LIST_init constMd5 idRc4 idAes
          ([2, 0, 0, 0, 0, 0, 0, 0] ++ List.replicate 16 17 ++ List.replicate 52 7) [] =
        some (schemeASpecKeys
          ((idRc4 (constMd5 ([] ++ (List.replicate 1000 (List.replicate 16 17)).flatten))
            (List.replicate 52 7)).drop 32)) :=
  ⟨by decide, by decide, by decide, by decide,
    C8_schemeA_pipeline constMd5 idRc4 idAes _ _ _ _ (by decide) (by decide) (by decide) (by decide)⟩

/-- Byte image of consecutive Scheme B entries: entry `j` is the 4-byte
little-endian index `cur + j` followed by its 16-byte key. -/
def entriesBytes : Nat → List (List Nat) → List Nat
  | _, [] => []
  | cur, k :: ks => toLE4 cur ++ k ++ entriesBytes (cur + 1) ks

theorem fromLE_toLE4 (n : Nat) (h : n < 2 ^ 32) : fromLE (toLE4 n) = n := by
  simp [fromLE, toLE4]
  omega

theorem schemeBLoopAux_congr : ∀ (f1 f2 : Nat) (dec : List Nat) (cur : Nat),
    dec.length ≤ f1 → dec.length ≤ f2 → schemeBLoopAux f1 dec cur = schemeBLoopAux f2 dec cur := by
  intro f1
  induction f1 with
  | zero =>
    intro f2 dec cur h1 _
    have h0 : dec.length = 0 := Nat.le_zero.mp h1
    cases f2 with
    | zero => rfl
    | succ g => simp [schemeBLoopAux, h0]
  | succ f ihf =>
    intro f2 dec cur h1 h2
    cases f2 with
    | zero =>
      have h0 : dec.length = 0 := Nat.le_zero.mp h2
      simp [schemeBLoopAux, h0]
    | succ g =>
      simp only [schemeBLoopAux]
      by_cases hl : dec.length < 20
      · rw [if_pos hl, if_pos hl]
      · rw [if_neg hl, if_neg hl]
        by_cases hi : fromLE (dec.take 4) ≠ cur
        · rw [if_pos hi, if_pos hi]
        · rw [if_neg hi, if_neg hi]
          have hd1 : (dec.drop 20).length ≤ f := by simp; omega
          have hd2 : (dec.drop 20).length ≤ g := by simp; omega
          rw [ihf g (dec.drop 20) (cur + 1) hd1 hd2]

theorem schemeBLoop_eq (dec : List Nat) (cur : Nat) :
    schemeBLoop dec cur =
      if dec.length < 20 then []
      else if fromLE (dec.take 4) ≠ cur then []
      else (dec.drop 4).take 16 :: schemeBLoop (dec.drop 20) (cur + 1) := by
  cases hn : dec.length with
  | zero =>
    have h0 : dec = [] := List.length_eq_zero.mp hn
    subst h0
    simp [schemeBLoop, schemeBLoopAux]
  | succ m =>
    show schemeBLoopAux dec.length dec cur = _
    rw [show schemeBLoopAux dec.length dec cur = schemeBLoopAux (m + 1) dec cur from by rw [hn]]
    simp only [schemeBLoopAux]
    rw [hn]
    by_cases hl : m + 1 < 20
    · rw [if_pos hl, if_pos hl]
    · rw [if_neg hl, if_neg hl]
      by_cases hi : fromLE (dec.take 4) ≠ cur
      · rw [if_pos hi, if_pos hi]
      · rw [if_neg hi, if_neg hi]
        have hc := schemeBLoopAux_congr m (dec.drop 20).length (dec.drop 20) (cur + 1)
          (by simp; omega) le_rfl
        rw [hc]
        rfl

theorem schemeBLoop_run (keys : List (List Nat)) : ∀ (cur : Nat) (tail : List Nat),
    (∀ k ∈ keys, k.length = 16) →
    cur + keys.length ≤ 2 ^ 32 →
    (tail.length < 20 ∨ fromLE (tail.take 4) ≠ cur + keys.length) →
    schemeBLoop (entriesBytes cur keys ++ tail) cur = keys := by
  induction keys with
  | nil =>
    intro cur tail _ _ hstop
    rw [schemeBLoop_eq]
    simp only [entriesBytes, List.nil_append]
    simp only [List.length_nil, Nat.add_zero] at hstop
    by_cases hl : tail.length < 20
    · rw [if_pos hl]
    · rcases hstop with hs | hs
      · exact absurd hs hl
      · rw [if_neg hl, if_pos hs]
  | cons k ks ih =>
    intro cur tail hlen hbound hstop
    have hk : k.length = 16 := hlen k (by simp)
    have hcur : cur < 2 ^ 32 := by simp at hbound; omega
    have h4 : (toLE4 cur).length = 4 := by simp [toLE4]
    rw [schemeBLoop_eq]
    simp only [entriesBytes, List.append_assoc]
    have hfull : ¬ (toLE4 cur ++ (k ++ (entriesBytes (cur + 1) ks ++ tail))).length < 20 := by
      simp [h4, hk]
      omega
    rw [if_neg hfull]
    have htake : (toLE4 cur ++ (k ++ (entriesBytes (cur + 1) ks ++ tail))).take 4 = toLE4 cur :=
      List.take_left' h4
    rw [htake, fromLE_toLE4 cur hcur, if_neg (by simp)]
    have hdrop4 : (toLE4 cur ++ (k ++ (entriesBytes (cur + 1) ks ++ tail))).drop 4 =
        k ++ (entriesBytes (cur + 1) ks ++ tail) := List.drop_left' h4
    have hdrop20 : (toLE4 cur ++ (k ++ (entriesBytes (cur + 1) ks ++ tail))).drop 20 =
        entriesBytes (cur + 1) ks ++ tail := by
      rw [show (20 : Nat) = (toLE4 cur).length + 16 from by rw [h4], List.drop_append,
        List.drop_left' hk]
    rw [hdrop4, List.take_left' hk, hdrop20]
    congr 1
    apply ih (cur + 1) tail (fun x hx => hlen x (by simp [hx]))
    · simp at hbound ⊢
      omega
    · rcases hstop with hs | hs
      · exact Or.inl hs
      · refine Or.inr ?_
        simp at hs ⊢
        omega

/-- Claim C7 (amended): for Scheme B blobs (header `03 00 00 00`), the AES
plaintext is parsed as `PEKLIST_PLAIN`, skipping a 32-byte header; the
remainder is consumed as consecutive 20-byte entries `{u32 index_LE;
u8 key[16]}`, appending keys while each index equals the running counter
starting at 0 and stopping at the first differing index or when fewer than
20 bytes remain, so entries indexed `0..N-1` followed by a sentinel entry
yield exactly the `N` keys in index order. -/
theorem C7_schemeB_decode (md5 : List Nat → List Nat) (rc4 aesDec : List Nat → List Nat → List Nat)
    (hdr km encPek bootKey hdr32 sentinel rest : List Nat) (keys : List (List Nat))
    (h8 : hdr.length = 8) (h3hdr : hdr.take 4 = [3, 0, 0, 0]) (h16 : km.length = 16)
    (hkeys : ∀ k ∈ keys, k.length = 16) (hN : keys.length ≤ 2 ^ 32)
    (h32 : hdr32.length = 32) (hsent : sentinel.length = 20)
    (hsentIdx : fromLE (sentinel.take 4) ≠ keys.length)
    (hplain : decryptAES (aesDec bootKey) encPek km =
      hdr32 ++ (entriesBytes 0 keys ++ (sentinel ++ rest))) :
    PEK_LIST_init md5 rc4 aesDec (hdr ++ km ++ encPek) bootKey = some keys := by
  have hlen24 : 24 ≤ (hdr ++ km ++ encPek).length := by
    simp [h8, h16]
    omega
  have hc1 : (hdr ++ km ++ encPek).take 8 = hdr := by
    rw [List.append_assoc, List.take_left' h8]
  have hc2 : ((hdr ++ km ++ encPek).drop 8).take 16 = km := by
    rw [List.append_assoc, List.drop_left' h8, List.take_left' h16]
  have hc3 : (hdr ++ km ++ encPek).drop 24 = encPek := by
    rw [List.append_assoc, show (24 : Nat) = hdr.length + 16 by rw [h8], List.drop_append,
      List.drop_left' h16]
  have hno2 : hdr.take 4 ≠ [2, 0, 0, 0] := by
    rw [h3hdr]
    decide
  simp only [PEK_LIST_init, parsePEKLIST_ENC, if_pos hlen24]
  rw [hc1, hc2, hc3, if_neg hno2, if_pos h3hdr, hplain]
  have hplen : 32 ≤ (hdr32 ++ (entriesBytes 0 keys ++ (sentinel ++ rest))).length := by
    simp [h32]
  simp only [parsePEKLIST_PLAIN, if_pos hplen]
  rw [List.drop_left' h32]
  have hrun := schemeBLoop_run keys 0 (sentinel ++ rest) hkeys (by simpa using hN)
    (Or.inr (by rw [List.take_append_of_le_length (by rw [hsent]; norm_num)]; simpa using hsentIdx))
  rw [hrun]

theorem C7_schemeB_decode_witness :
    ([3, 0, 0, 0, 0, 0, 0, 0] : List Nat).length = 8 ∧
      ([3, 0, 0, 0, 0, 0, 0, 0] : List Nat).take 4 = [3, 0, 0, 0] ∧
      zeros16.length = 16 ∧
      (∀ k ∈ [List.replicate 16 5], k.length = 16) ∧
      ([List.replicate (16 : Nat) 5] : List (List Nat)).length ≤ 2 ^ 32 ∧
      (List.replicate (32 : Nat) (0 : Nat)).length = 32 ∧
      (List.replicate (20 : Nat) (8 : Nat)).length = 20 ∧
      fromLE ((List.replicate (20 : Nat) (8 : Nat)).take 4) ≠
        ([List.replicate (16 : Nat) 5] : List (List Nat)).length ∧
      decryptAES (idAes zeros16)
          (List.replicate 32 0 ++ (entriesBytes 0 [List.replicate 16 5] ++ List.replicate 20 8))
          zeros16 =
        List.replicate 32 0 ++
          (entriesBytes 0 [List.replicate 16 5] ++
            (List.replicate 20 8 ++ List.replicate 8 0)) ∧
      PEK_LIST_init constMd5 idRc4 idAes
          ([3, 0, 0, 0, 0, 0, 0, 0] ++ zeros16 ++
            (List.replicate 32 0 ++ (entriesBytes 0 [List.replicate 16 5] ++ List.replicate 20 8)))
          zeros16 =
        some [List.replicate 16 5] :=
  ⟨by decide, by decide, by decide, by decide, by decide, by decide, by decide, by decide,
    by decide,
    C7_schemeB_decode constMd5 idRc4 idAes [3, 0, 0, 0, 0, 0, 0, 0] zeros16
      (List.replicate 32 0 ++ (entriesBytes 0 [List.replicate 16 5] ++ List.replicate 20 8))
      zeros16 (List.replicate 32 0) (List.replicate 20 8) (List.replicate 8 0)
      [List.replicate 16 5] (by decide) (by decide) (by decide)
      (by decide) (by decide) (by decide) (by decide) (by decide) (by decide)⟩

/-- Claim C7 as stated is false: it omits the 32-byte `PEKLIST_PLAIN` header
skip.  Here the AES plaintext consists, from offset 0, of exactly one entry
`{index 0; key}` followed by a sentinel entry (plus 8 bytes of zero-pad
slack, fewer than an entry), so the claim demands a singleton PEK list; the
code decodes the empty list because the first 32 plaintext bytes are
consumed as a header. -/
theorem C7_counterexample :
    decryptAES (idAes zeros16) (entriesBytes 0 [List.replicate 16 5] ++ List.replicate 20 8)
        zeros16 =
      entriesBytes 0 [List.replicate 16 5] ++ (List.replicate 20 8 ++ List.replicate 8 0) ∧
      PEK_LIST_init constMd5 idRc4 idAes
          ([3, 0, 0, 0, 0, 0, 0, 0] ++ zeros16 ++
            (entriesBytes 0 [List.replicate 16 5] ++ List.replicate 20 8)) zeros16 =
        some [] ∧
      some ([] : List (List Nat)) ≠ some [List.replicate 16 5] :=
  ⟨by decide, by decide, by decide⟩

/-- Heterogeneous return value of `decryptSecret`: raw bytes, a sentinel or
hex string, or a list of hex strings (history). -/
inductive DecOut where
  | bytes (b : List Nat)
  | str (s : String)
  | strList (l : List String)
  deriving DecidableEq, Repr

/-- The parsed `ENC_SECRET` wrapper.  `__init__` assigns both `is_aes` and
`is_rc4` on every successfully parsed secret (crypto.py lines 69-70), so
both attributes always exist afterwards. -/
structure ENC_SECRET where
  algoId : Nat
  flags : Nat
  pekId : Nat
  salt : List Nat
  secretLength : Option Nat
  encryptedData : List Nat
  is_aes : Bool
  is_rc4 : Bool
  deriving DecidableEq, Repr

/-- `ENC_SECRET.__init__(data)`: read the 16-bit algorithm ID, then parse
`ENC_SECRET_WIN16` for `DB_AES` (0x13) or `ENC_SECRET_WIN2K` for the RC4
variants (0x10, 0x11, 0x12); an unknown ID raises `ValueError`, a short
buffer raises a non-`ValueError` exception. -/
def encSecretInit (data : List Nat) : Except PyErr ENC_SECRET :=
  if data.length < 2 then .error .structError
  else
    let algoId := fromLE (data.take 2)
    if algoId = 0x13 then
      if data.length < 28 then .error .eofError
      else .ok {
        algoId := algoId
        flags := fromLE ((data.drop 2).take 2)
        pekId := fromLE ((data.drop 4).take 4)
        salt := (data.drop 8).take 16
        secretLength := some (fromLE ((data.drop 24).take 4))
        encryptedData := data.drop 28
        is_aes := true
        is_rc4 := false }
    else if algoId = 0x10 ∨ algoId = 0x11 ∨ algoId = 0x12 then
      if data.length < 24 then .error .eofError
      else .ok {
        algoId := algoId
        flags := fromLE ((data.drop 2).take 2)
        pekId := fromLE ((data.drop 4).take 4)
        salt := (data.drop 8).take 16
        secretLength := none
        encryptedData := data.drop 24
        is_aes := false
        is_rc4 := true }
    else .error .valueError

/-- `hasattr(encSecret, "is_rc4")`: true for every parsed secret, because
`__init__` assigns the attribute unconditionally before branching. -/
def hasattr_is_rc4 (_ : ENC_SECRET) : Bool := true

/-- `hasattr(encSecret, "is_aes")`: true for every parsed secret, for the
same reason as `hasattr_is_rc4`. -/
def hasattr_is_aes (_ : ENC_SECRET) : Bool := true

/-- Subscription `encSecret[...]` on the `ENC_SECRET` wrapper: the class
defines `__getattr__` (attribute forwarding to the inner cstruct) and
`pack`, but no `__getitem__`, and subscription does not fall back to
`__getattr__`, so every subscription raises `TypeError` regardless of the
key.  The polymorphic result type reflects that no value is ever
produced. -/
def ENC_SECRET.subscript {α : Type} (_ : ENC_SECRET) (_ : String) : Except PyErr α :=
  .error .typeError

/-- `PEK_LIST.removeRC4Layer` (crypto.py 228-235): intended as RC4 keyed
`MD5(pek_list[pek_id] || salt)` over the encrypted data, but every field is
read by subscripting the `ENC_SECRET` wrapper; the first such subscription,
`encSecret["PekID"]`, raises `TypeError` before the PEK list is indexed or
any MD5/RC4 work is done (the binds below follow the source's evaluation
order). -/
def removeRC4Layer (md5 : List Nat → List Nat) (rc4 : List Nat → List Nat → List Nat)
    (plainPekList : List (List Nat)) (encSecret : ENC_SECRET) : Except PyErr (List Nat) := do
  let pekId ← (ENC_SECRET.subscript encSecret "PekID" : Except PyErr Nat)
  let pek ← match plainPekList.get? pekId with
    | none => Except.error PyErr.indexError
    | some pek => Except.ok pek
  let salt ← (ENC_SECRET.subscript encSecret "Salt" : Except PyErr (List Nat))
  let data ← (ENC_SECRET.subscript encSecret "EncryptedData" : Except PyErr (List Nat))
  return rc4 (md5 (pek ++ salt)) data

/-- Set the low bit of a byte when its bit count is even
(the odd-parity fixup of `transform_key`). -/
def setOddParity (b : Nat) : Nat :=
  if (List.range 8).countP (fun i => b.testBit i) % 2 = 0 then b ||| 1 else b

/-- `transform_key(key7)`: spread the 56 key bits over the high 7 bits of 8
output bytes, then set odd parity; a non-7-byte input raises `ValueError`. -/
def transform_key (key7 : List Nat) : Except PyErr (List Nat) :=
  if key7.length ≠ 7 then .error .valueError
  else
    let g := fun i => key7.getD i 0
    .ok ([g 0 &&& 0xFE,
      ((g 0 <<< 7) ||| (g 1 >>> 1)) &&& 0xFE,
      ((g 1 <<< 6) ||| (g 2 >>> 2)) &&& 0xFE,
      ((g 2 <<< 5) ||| (g 3 >>> 3)) &&& 0xFE,
      ((g 3 <<< 4) ||| (g 4 >>> 4)) &&& 0xFE,
      ((g 4 <<< 3) ||| (g 5 >>> 5)) &&& 0xFE,
      ((g 5 <<< 2) ||| (g 6 >>> 6)) &&& 0xFE,
      (g 6 <<< 1) &&& 0xFE].map setOddParity)

/-- `deriveKey(baseKey)`: pack the RID as 4 little-endian bytes and build the
two 7-byte rotations, expanded by `transform_key`. -/
def deriveKey (baseKey : Nat) : Except PyErr (List Nat × List Nat) :=
  if 2 ^ 32 ≤ baseKey then .error .structError
  else
    let key := toLE4 baseKey
    let g := fun i => key.getD i 0
    do
      let k1 ← transform_key [g 0, g 1, g 2, g 3, g 0, g 1, g 2]
      let k2 ← transform_key [g 3, g 0, g 1, g 2, g 3, g 0, g 1]
      return (k1, k2)

/-- `PEK_LIST.__removeDESLayer(cipher, rid)`: single-DES decrypt the first 8
bytes with key 1 and the remainder with key 2; `desDec key data` is the
uninterpreted DES-ECB decryption, which requires inputs whose length is a
multiple of 8. -/
def removeDESLayer (desDec : List Nat → List Nat → List Nat) (cipher : List Nat) (rid : Nat) :
    Except PyErr (List Nat) := do
  let (k1, k2) ← deriveKey rid
  if (cipher.take 8).length % 8 ≠ 0 ∨ (cipher.drop 8).length % 8 ≠ 0 then .error .valueError
  else return (desDec k1 (cipher.take 8) ++ desDec k2 (cipher.drop 8))

/-- The ADAM history extraction of `decryptSecret`: `count` 16-byte slices at
offsets `4 + 4*(i+1) + i*16`, hex-encoded. -/
def adamHistory (tmpPlain : List Nat) (count : Int) : List String :=
  (List.range count.toNat).map
    (fun i => hexStr ((tmpPlain.drop (4 + 4 * (i + 1) + i * 16)).take 16))

/-- `PEK_LIST.decryptSecret(rawSecret, rid, isHistory, hasDES, isADAM)` from
crypto.py.  Only the `ENC_SECRET` construction is guarded by `try/except`
(`ValueError` becomes `"DEC_ERROR_INIT"`, any other exception
`"DEC_ERROR_UNK"`); every later exception propagates as `.error`.  The layer
dispatch tests `hasattr(encSecret, "is_rc4")`, which holds for every parsed
secret, so the RC4 layer removal runs for AES secrets as well and the
`hasattr(encSecret, "is_aes")` branch is unreachable; inside the removal the
wrapper subscription `encSecret["PekID"]` raises `TypeError`, so everything
after the dispatch is in turn unreachable.  `rid` is `none` for a falsy RID
argument and `some r` for a truthy digit string of `r`. -/
def decryptSecret (md5 : List Nat → List Nat) (rc4 aesDec desDec : List Nat → List Nat → List Nat)
    (plainPekList : List (List Nat)) (rawSecret : List Nat) (rid : Option Nat)
    (isHistory hasDES isADAM : Bool) : Except PyErr DecOut :=
  match encSecretInit rawSecret with
  | .error .valueError => .ok (.str "DEC_ERROR_INIT")
  | .error _ => .ok (.str "DEC_ERROR_UNK")
  | .ok encSecret => do
    let tmpPlain ←
      if hasattr_is_rc4 encSecret then
        removeRC4Layer md5 rc4 plainPekList encSecret
      else if hasattr_is_aes encSecret then do
        let pekId ← (ENC_SECRET.subscript encSecret "PekID" : Except PyErr Nat)
        let pek ← match plainPekList.get? pekId with
          | none => Except.error PyErr.indexError
          | some k => Except.ok k
        let data ← (ENC_SECRET.subscript encSecret "EncryptedData" : Except PyErr (List Nat))
        let salt ← (ENC_SECRET.subscript encSecret "Salt" : Except PyErr (List Nat))
        Except.ok (decryptAES (aesDec pek) data salt)
      else
        Except.error .nameError
    if isADAM then
      if isHistory && rid.isSome then
        if tmpPlain.length < 4 then Except.error .structError
        else Except.ok (.strList (adamHistory tmpPlain (sintLE4 (tmpPlain.take 4))))
      else if rid.isSome then Except.ok (.str (hexStr tmpPlain))
      else Except.ok (.str ("MISSING_RID_" ++ hexStr tmpPlain))
    else if hasDES then
      if isHistory && rid.isSome then do
        let hist ← (List.range (tmpPlain.length / 16)).mapM
          (fun i => removeDESLayer desDec ((tmpPlain.drop (i * 16)).take 16) (rid.getD 0))
        Except.ok (.strList (hist.map hexStr))
      else if rid.isSome then do
        let plain ← removeDESLayer desDec tmpPlain (rid.getD 0)
        Except.ok (.str (hexStr plain))
      else Except.ok (.str ("MISSING_RID_" ++ hexStr tmpPlain))
    else Except.ok (.bytes tmpPlain)

/-- A concrete `DB_AES` (0x13) secret: pek_id 0, salt `0xAA * 16`,
declared plain length 0, 16 bytes of ciphertext `0xBB`. -/
def rawAesSecret : List Nat :=
  [19, 0] ++ [0, 0] ++ [0, 0, 0, 0] ++ List.replicate 16 170 ++ [0, 0, 0, 0] ++
    List.replicate 16 187

/-- A concrete `DB_RC4` (0x10) secret: pek_id 0, salt `0xCC * 16`,
16 bytes of ciphertext `0xDD`. -/
def rawRc4Secret : List Nat :=
  [16, 0] ++ [0, 0] ++ [0, 0, 0, 0] ++ List.replicate 16 204 ++ List.replicate 16 221

/-- Claim C1: the claimed per-algorithm layer stripping never happens.  The
dispatch tests `hasattr(encSecret, "is_rc4")`, which is true for every
parsed secret (so the `decrypt_aes` branch is dead code regardless of the
algorithm ID), and the RC4 layer removal it always enters subscripts the
`ENC_SECRET` wrapper (`encSecret["PekID"]`), which defines no
`__getitem__`: for every successfully parsed secret — `DB_AES` and the RC4
variants alike — `decryptSecret` raises `TypeError`, and the result depends
on neither the RC4 nor the AES primitive. -/
theorem C1_parsed_secret_subscription_raises (md5 : List Nat → List Nat)
    (rc4 aesDec desDec : List Nat → List Nat → List Nat)
    (plainPekList : List (List Nat)) (raw : List Nat) (rid : Option Nat)
    (isHistory hasDES isADAM : Bool) (s : ENC_SECRET)
    (hok : encSecretInit raw = .ok s) :
    decryptSecret md5 rc4 aesDec desDec plainPekList raw rid isHistory hasDES isADAM =
      Except.error PyErr.typeError := by
  unfold decryptSecret
  rw [hok]
  rfl

theorem C1_parsed_secret_subscription_raises_witness :
    encSecretInit rawAesSecret =
      Except.ok ⟨19, 0, 0, List.replicate 16 170, some 0, List.replicate 16 187, true, false⟩ ∧
      decryptSecret constMd5 idRc4 idAes idAes [List.replicate 16 1] rawAesSecret none false
          false false = Except.error PyErr.typeError ∧
      encSecretInit rawRc4Secret =
        Except.ok ⟨16, 0, 0, List.replicate 16 204, none, List.replicate 16 221, false, true⟩ ∧
      decryptSecret constMd5 idRc4 idAes idAes [List.replicate 16 1] rawRc4Secret none false
          false false = Except.error PyErr.typeError :=
  ⟨by decide,
    C1_parsed_secret_subscription_raises constMd5 idRc4 idAes idAes [List.replicate 16 1]
      rawAesSecret none false false false
      ⟨19, 0, 0, List.replicate 16 170, some 0, List.replicate 16 187, true, false⟩ (by decide),
    by decide,
    C1_parsed_secret_subscription_raises constMd5 idRc4 idAes idAes [List.replicate 16 1]
      rawRc4Secret none false false false
      ⟨16, 0, 0, List.replicate 16 204, none, List.replicate 16 221, false, true⟩ (by decide)⟩

/-- Claim C3 is false as stated: a well-formed RC4 secret with an in-range
`pek_id` makes `decryptSecret` raise — the layer removal subscripts the
`ENC_SECRET` wrapper (`encSecret["PekID"]`, no `__getitem__`), so
`TypeError` propagates out of `decryptSecret` instead of becoming a
sentinel string. -/
theorem C3_counterexample :
    decryptSecret constMd5 idRc4 idAes idAes [List.replicate 16 1] rawRc4Secret none false true
        false = Except.error PyErr.typeError :=
  rfl

/-- Claim C3 (amended): `decryptSecret` catches exceptions only around the
secret-header parse: an unknown algorithm ID (`ValueError`) yields
`"DEC_ERROR_INIT"` and any other parse exception yields `"DEC_ERROR_UNK"`;
exceptions raised later (PEK-list indexing, layer removal, DES unwrap)
propagate to the caller. -/
theorem C3_parse_errors_mapped (md5 : List Nat → List Nat)
    (rc4 aesDec desDec : List Nat → List Nat → List Nat)
    (plainPekList : List (List Nat)) (raw : List Nat) (rid : Option Nat)
    (isHistory hasDES isADAM : Bool) (e : PyErr)
    (herr : encSecretInit raw = .error e) :
    decryptSecret md5 rc4 aesDec desDec plainPekList raw rid isHistory hasDES isADAM =
      Except.ok (.str (if e = PyErr.valueError then "DEC_ERROR_INIT" else "DEC_ERROR_UNK")) := by
  unfold decryptSecret
  rw [herr]
  cases e <;> rfl

theorem C3_parse_errors_mapped_witness :
    encSecretInit [90, 0] = Except.error PyErr.valueError ∧
      decryptSecret constMd5 idRc4 idAes idAes [] [90, 0] none false true false =
        Except.ok (.str "DEC_ERROR_INIT") :=
  ⟨rfl, C3_parse_errors_mapped constMd5 idRc4 idAes idAes [] [90, 0] none false true false
    PyErr.valueError rfl⟩

/-- Dynamic value of a datatable column: Python `None`, `int`, `str`,
`bytes`, or a list of ints (the only list-valued column the code consumes is
`object_class`). -/
inductive Value where
  | null
  | int (i : Int)
  | str (s : String)
  | bytes (b : List Nat)
  | intList (l : List Int)
  deriving DecidableEq, Repr

/-- A table record, modelled as its `as_dict()` column/value association;
`get` of an absent column yields `null`, per the record interface. -/
abbrev Record := List (String × Value)

/-- `record.get(name)`: first value stored under the column name, `null`
when absent. -/
def rget (r : Record) (name : String) : Value :=
  match r.find? (fun p => p.1 == name) with
  | some p => p.2
  | none => Value.null

/-- Python truthiness of a column value. -/
def truthy : Value → Bool
  | .null => false
  | .int i => i != 0
  | .str s => !s.isEmpty
  | .bytes b => !b.isEmpty
  | .intList l => !l.isEmpty

/-- Python `str()` of a value, as used for dictionary keys.  Integers and
strings are rendered exactly; the byte/list renderings are stand-ins (no
code path under verification keys a map by a bytes or list value). -/
def pyStr : Value → String
  | .null => "None"
  | .int i => toString i
  | .str s => s
  | .bytes _ => "bytes-repr"
  | .intList _ => "list-repr"

/-- Association-list lookup, modelling Python dict lookup. -/
def alGet {κ α : Type} [DecidableEq κ] : List (κ × α) → κ → Option α
  | [], _ => none
  | p :: ps, k => if p.1 = k then some p.2 else alGet ps k

/-- Association-list assignment, modelling Python dict assignment: an
existing key keeps its position, a new key is appended. -/
def alSet {κ α : Type} [DecidableEq κ] : List (κ × α) → κ → α → List (κ × α)
  | [], k, v => [(k, v)]
  | p :: ps, k, v => if p.1 = k then (k, v) :: ps else p :: alSet ps k v

theorem alGet_alSet_self {κ α : Type} [DecidableEq κ] (m : List (κ × α)) (k : κ) (v : α) :
    alGet (alSet m k v) k = some v := by
  induction m with
  | nil => simp [alGet, alSet]
  | cons p ps ih =>
    by_cases h : p.1 = k
    · simp [alGet, alSet, h]
    · simp [alGet, alSet, h, ih]

theorem alGet_alSet_ne {κ α : Type} [DecidableEq κ] (m : List (κ × α)) (k k' : κ) (v : α)
    (h : k' ≠ k) : alGet (alSet m k v) k' = alGet m k' := by
  have hne : k ≠ k' := h.symm
  induction m with
  | nil => simp [alGet, alSet, hne]
  | cons p ps ih =>
    by_cases hp : p.1 = k
    · simp [alGet, alSet, hp, hne]
    · simp [alGet, alSet, hp, ih]


/-- A link-table tuple `(link_DNT, link_base, link_deltime,
link_deactivetime, link_data)`. -/
def link_info (r : Record) : Value × Value × Value × Value × Value :=
  (rget r "link_DNT", rget r "link_base", rget r "link_deltime",
    rget r "link_deactivetime", rget r "link_data")

/-- The symmetric tuple `(backlink_DNT, link_base, link_deltime,
link_deactivetime, link_data)`. -/
def reverse_link_info (r : Record) : Value × Value × Value × Value × Value :=
  (rget r "backlink_DNT", rget r "link_base", rget r "link_deltime",
    rget r "link_deactivetime", rget r "link_data")

/-- The two link maps `links["to"]` and `links["from"]`. -/
structure LinksMaps where
  toMap : List (String × List (Value × Value × Value × Value × Value))
  fromMap : List (String × List (Value × Value × Value × Value × Value))

/-- One iteration of the link-table loop (ntds.py lines 225-246): each map
is assigned a singleton list only when its key is not yet present. -/
def linktableStep (m : LinksMaps) (r : Record) : LinksMaps :=
  let backlink_dnt := pyStr (rget r "backlink_DNT")
  let m1 := if (alGet m.toMap backlink_dnt).isSome then m.toMap
    else alSet m.toMap backlink_dnt [link_info r]
  let link_dnt := pyStr (rget r "link_DNT")
  let m2 := if (alGet m.fromMap link_dnt).isSome then m.fromMap
    else alSet m.fromMap link_dnt [reverse_link_info r]
  ⟨m1, m2⟩

/-- The link-table pass over all records, starting from empty maps. -/
def buildLinks (records : List Record) : LinksMaps :=
  records.foldl linktableStep ⟨[], []⟩

theorem buildLinks_toMap_aux (records : List Record) : ∀ (m : LinksMaps) (k : String),
    alGet (records.foldl linktableStep m).toMap k =
      match alGet m.toMap k with
      | some v => some v
      | none => (records.find? (fun r => pyStr (rget r "backlink_DNT") == k)).map
          (fun r => [link_info r]) := by
  induction records with
  | nil =>
    intro m k
    cases h : alGet m.toMap k <;> simp [h]
  | cons r rs ih =>
    intro m k
    simp only [List.foldl_cons]
    rw [ih]
    by_cases hk : pyStr (rget r "backlink_DNT") = k
    · have hb : (pyStr (rget r "backlink_DNT") == k) = true := beq_iff_eq.mpr hk
      by_cases hm : (alGet m.toMap k).isSome
      · obtain ⟨v, hv⟩ := Option.isSome_iff_exists.mp hm
        have hm' : (alGet m.toMap (pyStr (rget r "backlink_DNT"))).isSome = true := by
          rw [hk]
          exact hm
        simp only [linktableStep, if_pos hm']
        simp [hv, List.find?, hb]
      · have hnone : alGet m.toMap k = none := Option.not_isSome_iff_eq_none.mp hm
        have hm' : ¬ (alGet m.toMap (pyStr (rget r "backlink_DNT"))).isSome = true := by
          rw [hk]
          exact hm
        simp only [linktableStep, if_neg hm']
        rw [hk, alGet_alSet_self]
        simp [hnone, List.find?, hb]
    · have hb : (pyStr (rget r "backlink_DNT") == k) = false :=
        beq_eq_false_iff_ne.mpr hk
      by_cases hm : (alGet m.toMap (pyStr (rget r "backlink_DNT"))).isSome
      · simp only [linktableStep, if_pos hm]
        simp [List.find?, hb]
      · simp only [linktableStep, if_neg hm]
        rw [alGet_alSet_ne _ _ _ _ (fun he => hk he.symm)]
        simp [List.find?, hb]

theorem buildLinks_fromMap_aux (records : List Record) : ∀ (m : LinksMaps) (k : String),
    alGet (records.foldl linktableStep m).fromMap k =
      match alGet m.fromMap k with
      | some v => some v
      | none => (records.find? (fun r => pyStr (rget r "link_DNT") == k)).map
          (fun r => [reverse_link_info r]) := by
  induction records with
  | nil =>
    intro m k
    cases h : alGet m.fromMap k <;> simp [h]
  | cons r rs ih =>
    intro m k
    simp only [List.foldl_cons]
    rw [ih]
    by_cases hk : pyStr (rget r "link_DNT") = k
    · have hb : (pyStr (rget r "link_DNT") == k) = true := beq_iff_eq.mpr hk
      by_cases hm : (alGet m.fromMap k).isSome
      · obtain ⟨v, hv⟩ := Option.isSome_iff_exists.mp hm
        have hm' : (alGet m.fromMap (pyStr (rget r "link_DNT"))).isSome = true := by
          rw [hk]
          exact hm
        simp only [linktableStep, if_pos hm']
        simp [hv, List.find?, hb]
      · have hnone : alGet m.fromMap k = none := Option.not_isSome_iff_eq_none.mp hm
        have hm' : ¬ (alGet m.fromMap (pyStr (rget r "link_DNT"))).isSome = true := by
          rw [hk]
          exact hm
        simp only [linktableStep, if_neg hm']
        rw [hk, alGet_alSet_self]
        simp [hnone, List.find?, hb]
    · have hb : (pyStr (rget r "link_DNT") == k) = false :=
        beq_eq_false_iff_ne.mpr hk
      by_cases hm : (alGet m.fromMap (pyStr (rget r "link_DNT"))).isSome
      · simp only [linktableStep, if_pos hm]
        simp [List.find?, hb]
      · simp only [linktableStep, if_neg hm]
        rw [alGet_alSet_ne _ _ _ _ (fun he => hk he.symm)]
        simp [List.find?, hb]

/-- Claim C4 (amended): for every key, the link maps hold exactly the
single-element list built from the first link-table row whose stringified
`backlink_DNT` (for `links.to`) or `link_DNT` (for `links.from`) matches;
tuples of later rows sharing that key are not recorded. -/
theorem C4_first_link_row_wins (records : List Record) (k : String) :
    alGet (buildLinks records).toMap k =
      (records.find? (fun r => pyStr (rget r "backlink_DNT") == k)).map
        (fun r => [link_info r]) ∧
    alGet (buildLinks records).fromMap k =
      (records.find? (fun r => pyStr (rget r "link_DNT") == k)).map
        (fun r => [reverse_link_info r]) := by
  constructor
  · rw [buildLinks, buildLinks_toMap_aux]
    rfl
  · rw [buildLinks, buildLinks_fromMap_aux]
    rfl

/-- Claim C4 as stated is false: two link-table rows sharing
`backlink_DNT = 1` leave only the first row's tuple under `links.to["1"]`;
the second row's tuple is absent (nothing is appended). -/
theorem C4_counterexample :
    alGet (buildLinks
        [[("backlink_DNT", Value.int 1), ("link_DNT", Value.int 2), ("link_base", Value.int 10)],
         [("backlink_DNT", Value.int 1), ("link_DNT", Value.int 3), ("link_base", Value.int 11)]]).toMap
      "1" =
      some [(Value.int 2, Value.int 10, Value.null, Value.null, Value.null)] ∧
    (Value.int 3, Value.int 11, Value.null, Value.null, Value.null) ∉
      [(Value.int 2, Value.int 10, Value.null, Value.null, Value.null)] :=
  ⟨rfl, by decide⟩

/-- An element of a stored DN entry: either an `"NAME=rdn"` component
string, or a whole parent entry nested as a single element (the effect of
`[*tdn, parent_dn]`). -/
inductive DnElem where
  | s (v : String)
  | sub (l : List DnElem)
  deriving Repr

mutual

/-- Decidable equality for `DnElem`, written by hand because the nested
occurrence of `List DnElem` defeats the deriving handler. -/
def DnElem.decEq : (a b : DnElem) → Decidable (a = b)
  | .s a, .s b =>
      if h : a = b then .isTrue (by rw [h]) else .isFalse (by simp [h])
  | .s _, .sub _ => .isFalse (fun h => DnElem.noConfusion h)
  | .sub _, .s _ => .isFalse (fun h => DnElem.noConfusion h)
  | .sub a, .sub b =>
      match DnElem.decEqList a b with
      | .isTrue h => .isTrue (by rw [h])
      | .isFalse h => .isFalse (by intro hh; injection hh; contradiction)

/-- Decidable equality for lists of `DnElem`. -/
def DnElem.decEqList : (a b : List DnElem) → Decidable (a = b)
  | [], [] => .isTrue rfl
  | [], _ :: _ => .isFalse (fun h => List.noConfusion h)
  | _ :: _, [] => .isFalse (fun h => List.noConfusion h)
  | a :: as, b :: bs =>
      match DnElem.decEq a b, DnElem.decEqList as bs with
      | .isTrue h1, .isTrue h2 => .isTrue (by rw [h1, h2])
      | .isFalse h1, _ => .isFalse (by intro hh; injection hh; contradiction)
      | _, .isFalse h2 => .isFalse (by intro hh; injection hh; contradiction)

end

instance : DecidableEq DnElem := DnElem.decEq

/-- State of the DN construction: the
`distinguished_names_tag_to_distinguished_names` map and the `remaining`
queue for the second pass. -/
structure DnState where
  dnt_to_dn : List (String × List DnElem)
  remaining : List Record

/-- Python `str.upper()` (the names in play are ASCII), written over the
character list so that it evaluates by kernel reduction. -/
def strUpper (s : String) : String :=
  String.mk (s.data.map Char.toUpper)

/-- `.upper()` on a resolved RDN-type name; a non-string raises
`AttributeError`. -/
def vUpper : Value → Except PyErr String
  | .str s => .ok (strUpper s)
  | _ => .error .attributeError

/-- The internal column name of `rdn` (`NAME_TO_INTERNAL["rdn"]`). -/
def rdnCol : String := "ATTm589825"

/-- One iteration of `build_dns` (ntds.py lines 331-350): records with a
non-null `rdn` and a truthy `PDNT_col` resolve their parent from the map
(enqueueing the record when `collect` holds and the parent is unknown),
look up the RDN type pair with default `("Common-Name", "cn")`, and store
the two `NAME=rdn` components, with the parent entry appended as one nested
element when resolved. -/
def buildDnStep (resolve : List (String × (Value × Value))) (collect : Bool) (st : DnState)
    (r : Record) : Except PyErr DnState :=
  if rget r rdnCol ≠ Value.null ∧ truthy (rget r "PDNT_col") then do
    let parent_dn := alGet st.dnt_to_dn (pyStr (rget r "PDNT_col"))
    let st1 := if parent_dn.isNone && collect then
        { st with remaining := st.remaining ++ [r] }
      else st
    let pair := (alGet resolve ("ATTm" ++ pyStr (rget r "RDNtyp_col"))).getD
      (.str "Common-Name", .str "cn")
    let rdn_cn ← vUpper pair.1
    let rdn_ldap ← vUpper pair.2
    let rdn := rget r rdnCol
    let tdn := [DnElem.s (rdn_cn ++ "=" ++ pyStr rdn), DnElem.s (rdn_ldap ++ "=" ++ pyStr rdn)]
    let entry := match parent_dn with
      | none => tdn
      | some pdn => tdn ++ [DnElem.sub pdn]
    return { st1 with dnt_to_dn := alSet st1.dnt_to_dn (pyStr (rget r "DNT_col")) entry }
  else
    return st

/-- A pass of `build_dns` over an iterator of records. -/
def build_dns (resolve : List (String × (Value × Value))) (collect : Bool) (st : DnState)
    (records : List Record) : Except PyErr DnState :=
  records.foldlM (buildDnStep resolve collect) st

/-- The whole DN construction (ntds.py lines 352-358): a first pass over
the datatable that collects unresolved records, then, when any remain, a
second pass over them that collects nothing. -/
def buildDnsAll (resolve : List (String × (Value × Value))) (records : List Record) :
    Except PyErr (List (String × List DnElem)) := do
  let st1 ← build_dns resolve true ⟨[], []⟩ records
  if st1.remaining.isEmpty then
    return st1.dnt_to_dn
  else
    let st2 ← build_dns resolve false st1 st1.remaining
    return st2.dnt_to_dn

/-- Claim C5 (amended): when a record with non-null `rdn` and truthy
`PDNT_col` is processed and its parent DN is already resolved, the stored
entry is the two `NAME=rdn` components followed by the parent's whole entry
as a single nested element (so the entry's last element equals the parent's
entry); when the parent is unresolved, the entry is just the two RDN
components. -/
theorem C5_dn_entry_nested (resolve : List (String × (Value × Value))) (collect : Bool)
    (st : DnState) (r : Record) (cn ldap : String)
    (hrdn : rget r rdnCol ≠ Value.null)
    (hpd : truthy (rget r "PDNT_col") = true)
    (hres : (alGet resolve ("ATTm" ++ pyStr (rget r "RDNtyp_col"))).getD
      (.str "Common-Name", .str "cn") = (.str cn, .str ldap)) :
    (∀ pdn, alGet st.dnt_to_dn (pyStr (rget r "PDNT_col")) = some pdn →
      ∃ st', buildDnStep resolve collect st r = .ok st' ∧
        alGet st'.dnt_to_dn (pyStr (rget r "DNT_col")) =
          some [DnElem.s (strUpper cn ++ "=" ++ pyStr (rget r rdnCol)),
                DnElem.s (strUpper ldap ++ "=" ++ pyStr (rget r rdnCol)),
                DnElem.sub pdn]) ∧
    (alGet st.dnt_to_dn (pyStr (rget r "PDNT_col")) = none →
      ∃ st', buildDnStep resolve collect st r = .ok st' ∧
        alGet st'.dnt_to_dn (pyStr (rget r "DNT_col")) =
          some [DnElem.s (strUpper cn ++ "=" ++ pyStr (rget r rdnCol)),
                DnElem.s (strUpper ldap ++ "=" ++ pyStr (rget r rdnCol))]) := by
  have hcond : rget r rdnCol ≠ Value.null ∧ truthy (rget r "PDNT_col") := ⟨hrdn, hpd⟩
  constructor
  · intro pdn hp
    refine ⟨⟨alSet st.dnt_to_dn (pyStr (rget r "DNT_col"))
        [DnElem.s (strUpper cn ++ "=" ++ pyStr (rget r rdnCol)),
         DnElem.s (strUpper ldap ++ "=" ++ pyStr (rget r rdnCol)),
         DnElem.sub pdn], st.remaining⟩, ?_, ?_⟩
    · unfold buildDnStep
      rw [if_pos hcond, hp, hres]
      rfl
    · exact alGet_alSet_self _ _ _
  · intro hp
    cases collect with
    | true =>
      refine ⟨⟨alSet st.dnt_to_dn (pyStr (rget r "DNT_col"))
          [DnElem.s (strUpper cn ++ "=" ++ pyStr (rget r rdnCol)),
           DnElem.s (strUpper ldap ++ "=" ++ pyStr (rget r rdnCol))],
          st.remaining ++ [r]⟩, ?_, ?_⟩
      · unfold buildDnStep
        rw [if_pos hcond, hp, hres]
        rfl
      · exact alGet_alSet_self _ _ _
    | false =>
      refine ⟨⟨alSet st.dnt_to_dn (pyStr (rget r "DNT_col"))
          [DnElem.s (strUpper cn ++ "=" ++ pyStr (rget r rdnCol)),
           DnElem.s (strUpper ldap ++ "=" ++ pyStr (rget r rdnCol))],
          st.remaining⟩, ?_, ?_⟩
      · unfold buildDnStep
        rw [if_pos hcond, hp, hres]
        rfl
      · exact alGet_alSet_self _ _ _


theorem C5_dn_entry_nested_witness :
    (∃ st', buildDnStep [("ATTm99", (Value.str "Org-Unit", Value.str "ou"))] true
        ⟨[("1", [DnElem.s "X"])], []⟩
        [("ATTm589825", Value.str "B"), ("PDNT_col", Value.int 1), ("DNT_col", Value.int 2),
          ("RDNtyp_col", Value.int 99)] = .ok st' ∧
      alGet st'.dnt_to_dn
          (pyStr (rget [("ATTm589825", Value.str "B"), ("PDNT_col", Value.int 1),
            ("DNT_col", Value.int 2), ("RDNtyp_col", Value.int 99)] "DNT_col")) =
        some [DnElem.s (strUpper "Org-Unit" ++ "=" ++
                pyStr (rget [("ATTm589825", Value.str "B"), ("PDNT_col", Value.int 1),
                  ("DNT_col", Value.int 2), ("RDNtyp_col", Value.int 99)] rdnCol)),
              DnElem.s (strUpper "ou" ++ "=" ++
                pyStr (rget [("ATTm589825", Value.str "B"), ("PDNT_col", Value.int 1),
                  ("DNT_col", Value.int 2), ("RDNtyp_col", Value.int 99)] rdnCol)),
              DnElem.sub [DnElem.s "X"]]) ∧
    (∃ st', buildDnStep [("ATTm99", (Value.str "Org-Unit", Value.str "ou"))] true
        ⟨[("1", [DnElem.s "X"])], []⟩
        [("ATTm589825", Value.str "C"), ("PDNT_col", Value.int 7), ("DNT_col", Value.int 3),
          ("RDNtyp_col", Value.int 99)] = .ok st' ∧
      alGet st'.dnt_to_dn
          (pyStr (rget [("ATTm589825", Value.str "C"), ("PDNT_col", Value.int 7),
            ("DNT_col", Value.int 3), ("RDNtyp_col", Value.int 99)] "DNT_col")) =
        some [DnElem.s (strUpper "Org-Unit" ++ "=" ++
                pyStr (rget [("ATTm589825", Value.str "C"), ("PDNT_col", Value.int 7),
                  ("DNT_col", Value.int 3), ("RDNtyp_col", Value.int 99)] rdnCol)),
              DnElem.s (strUpper "ou" ++ "=" ++
                pyStr (rget [("ATTm589825", Value.str "C"), ("PDNT_col", Value.int 7),
                  ("DNT_col", Value.int 3), ("RDNtyp_col", Value.int 99)] rdnCol))]) :=
  ⟨(C5_dn_entry_nested [("ATTm99", (Value.str "Org-Unit", Value.str "ou"))] true
      ⟨[("1", [DnElem.s "X"])], []⟩
      [("ATTm589825", Value.str "B"), ("PDNT_col", Value.int 1), ("DNT_col", Value.int 2),
        ("RDNtyp_col", Value.int 99)] "Org-Unit" "ou" (by decide) (by decide) (by decide)).1
      [DnElem.s "X"] (by decide),
    (C5_dn_entry_nested [("ATTm99", (Value.str "Org-Unit", Value.str "ou"))] true
      ⟨[("1", [DnElem.s "X"])], []⟩
      [("ATTm589825", Value.str "C"), ("PDNT_col", Value.int 7), ("DNT_col", Value.int 3),
        ("RDNtyp_col", Value.int 99)] "Org-Unit" "ou" (by decide) (by decide) (by decide)).2
      (by decide)⟩

/-- Claim C5 as stated is false: the code stores `[*tdn, parent_dn]`, which
nests the parent's DN list as one element instead of splicing its
components.  For a parent record `A` (unresolved grandparent) and child `B`,
the child's stored entry has three elements with the parent's entry nested
whole, not the flat four-component list the claim describes. -/
theorem C5_counterexample :
    buildDnsAll []
        [[("ATTm589825", Value.str "A"), ("PDNT_col", Value.int 99), ("DNT_col", Value.int 1),
            ("RDNtyp_col", Value.int 0)],
         [("ATTm589825", Value.str "B"), ("PDNT_col", Value.int 1), ("DNT_col", Value.int 2),
            ("RDNtyp_col", Value.int 0)]] =
      Except.ok
        [("1", [DnElem.s "COMMON-NAME=A", DnElem.s "CN=A"]),
         ("2", [DnElem.s "COMMON-NAME=B", DnElem.s "CN=B",
            DnElem.sub [DnElem.s "COMMON-NAME=A", DnElem.s "CN=A"]])] ∧
      [DnElem.s "COMMON-NAME=B", DnElem.s "CN=B",
          DnElem.sub [DnElem.s "COMMON-NAME=A", DnElem.s "CN=A"]] ≠
        [DnElem.s "COMMON-NAME=B", DnElem.s "CN=B", DnElem.s "COMMON-NAME=A",
          DnElem.s "CN=A"] :=
  ⟨by decide, by decide⟩

/-- `NAME_TO_INTERNAL["pek_list"]`. -/
def pekListCol : String := "ATTk590689"

/-- `NAME_TO_INTERNAL["governs_id"]`. -/
def governsIdCol : String := "ATTc131094"

/-- `NAME_TO_INTERNAL["attribute_name_ldap"]`. -/
def ldapNameCol : String := "ATTm131532"

/-- `NAME_TO_INTERNAL["attribute_name_common_name"]`. -/
def commonNameCol : String := "ATTm3"

/-- `NAME_TO_INTERNAL["attribute_id"]`. -/
def attributeIdCol : String := "ATTc131102"

/-- `NAME_TO_INTERNAL["ms_ds_int_id"]`. -/
def msDsIntIdCol : String := "ATTj591540"

/-- `NAME_TO_INTERNAL["link_id"]`. -/
def linkIdCol : String := "ATTj131122"

/-- `NAME_TO_INTERNAL["is_deleted"]`. -/
def isDeletedCol : String := "ATTi131120"

/-- `NAME_TO_INTERNAL["object_class"]`. -/
def objectClassCol : String := "ATTc0"

/-- `NTDS.get_object_class(record)`: the `ATTc0` value as a list, wrapping a
truthy scalar into a singleton and a falsy one into the empty list. -/
def get_object_class (r : Record) : List Value :=
  match rget r objectClassCol with
  | .intList l => l.map Value.int
  | v => if truthy v then [v] else []

/-- The dictionary produced by `serialize_record`: resolved
`(common_name, ldap_name)` pairs mapped to (hex-encoded) column values. -/
abbrev SerializedRec := List ((Value × Value) × Value)

/-- `hexlify(value).decode() if isinstance(value, bytes) else value`. -/
def hexlify_if_bytes (v : Value) : Value :=
  match v with
  | .bytes b => .str (hexStr b)
  | _ => v

/-- The schema-related state of an `NTDS` instance that the datatable pass
of `__build_schemas` reads and writes (the link maps and the DN map are
modelled separately by `LinksMaps` and `DnState`). -/
structure NTDSState where
  datatable_columns_mapping : List (Int × String)
  object_class_schema_resolve : List (String × (Value × Value))
  object_class_schema_ldap : List (Value × String)
  object_class_schema_common_name : List (Value × String)
  attribute_schema_resolve : List (String × (Value × Value))
  attribute_schema_ldap : List (Value × String)
  attribute_schema_common_name : List (Value × String)
  attribute_schema_links : List (String × (Value × Value))
  attribute_schema_unresolved : List (Value × (Value × Value × Value))
  security_descriptors : List (String × Value)
  raw_enc_pek_list : Option String
  is_adam : Bool
  root_pek_list : Option Value
  schema_pek_list : Option Value
  kds_root_keys : List SerializedRec

/-- The state right after `NTDS.__init__`'s field initialisation:
empty maps, no PEK blob, `is_adam = False`. -/
def initState (dtCols : List (Int × String)) : NTDSState :=
  { datatable_columns_mapping := dtCols
    object_class_schema_resolve := []
    object_class_schema_ldap := []
    object_class_schema_common_name := []
    attribute_schema_resolve := []
    attribute_schema_ldap := []
    attribute_schema_common_name := []
    attribute_schema_links := []
    attribute_schema_unresolved := []
    security_descriptors := []
    raw_enc_pek_list := none
    is_adam := false
    root_pek_list := none
    schema_pek_list := none
    kds_root_keys := [] }

/-- `NTDS.serialize_record(record)`: keep the columns present in
`attribute_schema["resolve"]`, keyed by their `(common_name, ldap_name)`
pair, hex-encoding byte values. -/
def serialize_record (resolve : List (String × (Value × Value))) (r : Record) : SerializedRec :=
  r.foldl (fun acc p =>
    match alGet resolve p.1 with
    | some names => alSet acc names (hexlify_if_bytes p.2)
    | none => acc) []

/-- `NTDS.extract_object_id_name(object_id)`:
`object_class_schema["resolve"].get(str(object_id))`. -/
def extract_object_id_name (st : NTDSState) (object_id : Value) : Option (Value × Value) :=
  alGet st.object_class_schema_resolve (pyStr object_id)

/-- The inner `update_attribute_schema` helper of `__build_schemas`, called
with the internal column name already resolved from
`datatable_columns_mapping`. -/
def update_attribute_schema (st : NTDSState) (internal : String) (common_name ldap_name : Value) :
    NTDSState :=
  { st with
    attribute_schema_resolve := alSet st.attribute_schema_resolve internal (common_name, ldap_name)
    attribute_schema_common_name := alSet st.attribute_schema_common_name common_name internal
    attribute_schema_ldap := alSet st.attribute_schema_ldap ldap_name internal }

/-- Membership lookup of a record value in `datatable_columns_mapping`
(a dict keyed by `int`): only `int` values can hit. -/
def dtLookup (m : List (Int × String)) : Value → Option String
  | .int i => alGet m i
  | _ => none

/-- `datatable_columns_mapping.get(v, v)`: the mapped column name when the
value is a present `int` key, the value itself otherwise. -/
def dtGetOr (m : List (Int × String)) (v : Value) : Value :=
  match dtLookup m v with
  | some s => .str s
  | none => v

/-- Python falsiness of the `raw_enc_pek_list` attribute (`None` or the
empty string). -/
def rawFalsy : Option String → Bool
  | none => true
  | some s => s.isEmpty

/-- `isinstance(v, int)`. -/
def Value.isInt : Value → Bool
  | .int _ => true
  | _ => false

/-- One iteration of the datatable classification loop of `__build_schemas`
(ntds.py lines 250-320): the `elif` chain on the record's object classes.
`.error` models a raised exception (`hexlify` of a non-bytes PEK value). -/
def classifyStep (st : NTDSState) (r : Record) : Except PyErr NTDSState :=
  let object_classes := get_object_class r
  if Value.int 196621 ∈ object_classes then
    let governs_id := pyStr (rget r governsIdCol)
    let ldap_name := rget r ldapNameCol
    let common_name := rget r commonNameCol
    .ok { st with
      object_class_schema_resolve :=
        alSet st.object_class_schema_resolve governs_id (common_name, ldap_name)
      object_class_schema_ldap := alSet st.object_class_schema_ldap ldap_name governs_id
      object_class_schema_common_name :=
        alSet st.object_class_schema_common_name common_name governs_id }
  else if Value.int 196622 ∈ object_classes then
    let attr_id := rget r attributeIdCol
    let msds_id := rget r msDsIntIdCol
    let ldap_name := rget r ldapNameCol
    let common_name := rget r commonNameCol
    let link_id := rget r linkIdCol
    let st1 := if link_id.isInt then
        { st with attribute_schema_links := alSet st.attribute_schema_links (pyStr link_id) (common_name, ldap_name) }
      else st
    match dtLookup st1.datatable_columns_mapping attr_id with
    | some internal => .ok (update_attribute_schema st1 internal common_name ldap_name)
    | none =>
      match dtLookup st1.datatable_columns_mapping msds_id with
      | some internal => .ok (update_attribute_schema st1 internal common_name ldap_name)
      | none => .ok { st1 with attribute_schema_unresolved := alSet st1.attribute_schema_unresolved ldap_name (dtGetOr st1.datatable_columns_mapping attr_id, dtGetOr st1.datatable_columns_mapping msds_id, common_name) }
  else if rawFalsy st.raw_enc_pek_list ∧ Value.int 655427 ∈ object_classes ∧
      rget r pekListCol ≠ Value.null then
    match rget r pekListCol with
    | .bytes b => .ok { st with is_adam := false, raw_enc_pek_list := some (hexStr b) }
    | _ => .error .typeError
  else if object_classes = [Value.int 65536] ∧ rget r pekListCol ≠ Value.null then
    .ok { st with is_adam := true, root_pek_list := some (rget r pekListCol) }
  else if Value.int 196617 ∈ object_classes ∧ rget r pekListCol ≠ Value.null then
    .ok { st with is_adam := true, schema_pek_list := some (rget r pekListCol) }
  else if Value.int 655372 ∈ object_classes ∧ rget r pekListCol ≠ Value.null then
    match rget r pekListCol with
    | .bytes b => .ok { st with is_adam := true, raw_enc_pek_list := some (hexStr b) }
    | _ => .error .typeError
  else if Value.int 655638 ∈ object_classes then
    .ok { st with kds_root_keys := st.kds_root_keys ++ [serialize_record st.attribute_schema_resolve r] }
  else
    .ok st

/-- The datatable pass of `__build_schemas`, folding `classifyStep` over the
records. -/
def buildSchemasDatatable (st : NTDSState) (records : List Record) : Except PyErr NTDSState :=
  records.foldlM classifyStep st

/-- Claim C6 (amended): once `raw_enc_pek_list` holds a (truthy) blob, a
later record whose classes include `DOMAIN_DNS` but none of the other
dispatched classes leaves the whole state unchanged (the `DOMAIN_DNS`
branch is guarded by `not self.raw_enc_pek_list`); but the `CONFIGURATION`
branch carries no such guard, so a later `CONFIGURATION` record with a
non-null `pek_list` overwrites `raw_enc_pek_list` with the hex of its blob
and sets `is_adam` to true. -/
theorem C6_first_hit_guard_only_domain_dns (st : NTDSState) (r : Record)
    (hraw : rawFalsy st.raw_enc_pek_list = false)
    (hcs : Value.int 196621 ∉ get_object_class r)
    (has : Value.int 196622 ∉ get_object_class r)
    (htop : get_object_class r ≠ [Value.int 65536])
    (hdmd : Value.int 196617 ∉ get_object_class r) :
    (Value.int 655427 ∈ get_object_class r → Value.int 655372 ∉ get_object_class r →
      Value.int 655638 ∉ get_object_class r → classifyStep st r = .ok st) ∧
    (∀ b, Value.int 655372 ∈ get_object_class r → rget r pekListCol = Value.bytes b →
      classifyStep st r = .ok { st with is_adam := true, raw_enc_pek_list := some (hexStr b) }) := by
  have h3 : ¬(rawFalsy st.raw_enc_pek_list = true ∧ Value.int 655427 ∈ get_object_class r ∧
      rget r pekListCol ≠ Value.null) := by
    simp [hraw]
  have h4 : ¬(get_object_class r = [Value.int 65536] ∧ rget r pekListCol ≠ Value.null) :=
    fun hh => htop hh.1
  have h5 : ¬(Value.int 196617 ∈ get_object_class r ∧ rget r pekListCol ≠ Value.null) :=
    fun hh => hdmd hh.1
  constructor
  · intro _ hcfg hkds
    have h6 : ¬(Value.int 655372 ∈ get_object_class r ∧ rget r pekListCol ≠ Value.null) :=
      fun hh => hcfg hh.1
    simp only [classifyStep]
    rw [if_neg hcs, if_neg has, if_neg h3, if_neg h4, if_neg h5, if_neg h6, if_neg hkds]
  · intro b hcfg hpek
    have h6 : Value.int 655372 ∈ get_object_class r ∧ rget r pekListCol ≠ Value.null := by
      refine ⟨hcfg, ?_⟩
      rw [hpek]
      simp
    simp only [classifyStep]
    rw [if_neg hcs, if_neg has, if_neg h3, if_neg h4, if_neg h5, if_pos h6, hpek]

theorem C6_first_hit_guard_only_domain_dns_witness :
    rawFalsy (some "aa") = false ∧
      classifyStep { initState [] with raw_enc_pek_list := some "aa" }
          [("ATTc0", Value.int 655427), ("ATTk590689", Value.bytes [3])] =
        .ok { initState [] with raw_enc_pek_list := some "aa" } ∧
      classifyStep { initState [] with raw_enc_pek_list := some "aa" }
          [("ATTc0", Value.int 655372), ("ATTk590689", Value.bytes [2])] =
        .ok { { initState [] with raw_enc_pek_list := some "aa" } with
          is_adam := true, raw_enc_pek_list := some (hexStr [2]) } :=
  ⟨by decide,
    (C6_first_hit_guard_only_domain_dns { initState [] with raw_enc_pek_list := some "aa" }
        [("ATTc0", Value.int 655427), ("ATTk590689", Value.bytes [3])]
        (by decide) (by decide) (by decide) (by decide) (by decide)).1
      (by decide) (by decide) (by decide),
    (C6_first_hit_guard_only_domain_dns { initState [] with raw_enc_pek_list := some "aa" }
        [("ATTc0", Value.int 655372), ("ATTk590689", Value.bytes [2])]
        (by decide) (by decide) (by decide) (by decide) (by decide)).2
      [2] (by decide) (by decide)⟩

/-- Claim C6 as stated is false: after a `DOMAIN_DNS` record sets
`raw_enc_pek_list` to hex `01`, a later `CONFIGURATION` record with a
non-null `pek_list` reassigns it to hex `02` and flips `is_adam` to true;
the first hit does not win against `CONFIGURATION` records. -/
theorem C6_counterexample :
    (buildSchemasDatatable (initState [])
        [[("ATTc0", Value.int 655427), ("ATTk590689", Value.bytes [1])],
         [("ATTc0", Value.int 655372), ("ATTk590689", Value.bytes [2])]]).map
      (fun st => (st.raw_enc_pek_list, st.is_adam)) = Except.ok (some "02", true) ∧
    (some "02" : Option String) ≠ some "01" :=
  ⟨by decide, by decide⟩

/-- The body of one `dump_ntds_dit` loop iteration (ntds.py lines 429-440):
skip deleted records when requested, skip records whose truthy object-class
list is empty, and otherwise compute the serialized record (which the
function then discards).  Returns the serialized record the iteration
computes, or `none` when the loop `continue`s. -/
def dumpStep (st : NTDSState) (skip_deleted : Bool) (r : Record) : Option SerializedRec :=
  if truthy (rget r isDeletedCol) && skip_deleted then none
  else
    let id_to_names_mapping := ((get_object_class r).filter truthy).foldl
      (fun acc oc => alSet acc oc (extract_object_id_name st oc))
      ([] : List (Value × Option (Value × Value)))
    if id_to_names_mapping.isEmpty then none
    else some (serialize_record st.attribute_schema_resolve r)

/-- The serialized records computed (and discarded) by the `dump_ntds_dit`
loop, in datatable order. -/
def dump_serialized (st : NTDSState) (records : List Record) (skip_deleted : Bool) :
    List SerializedRec :=
  records.filterMap (dumpStep st skip_deleted)

/-- `NTDS.dump_ntds_dit(skip_deleted)`: the function is annotated as an
iterator but its body contains no `yield` statement; it runs the loop —
filtering and serializing as `dumpStep` does — and returns without emitting
anything, so the stream of emitted records is empty. -/
def dump_ntds_dit (st : NTDSState) (records : List Record) (skip_deleted : Bool) :
    List SerializedRec :=
  (dump_serialized st records skip_deleted).foldl (fun emitted _ => emitted) []

theorem foldl_const {α β : Type} (l : List α) : ∀ acc : β, l.foldl (fun e _ => e) acc = acc := by
  induction l with
  | nil => intro acc; rfl
  | cons a as ih => intro acc; exact ih acc

/-- Claim C2: `dump_ntds_dit` emits nothing at all — it contains no `yield`,
so it returns `None` rather than an iterator of serialized records.  On a
datatable with one live record carrying a resolvable object class, the loop
serializes the record exactly once, but the emitted stream is empty instead
of holding that serialized form. -/
theorem C2_dump_emits_nothing :
    (∀ (st : NTDSState) (records : List Record) (skip_deleted : Bool),
      dump_ntds_dit st records skip_deleted = []) ∧
    dump_serialized
        { initState [] with
          object_class_schema_resolve := [("655427", (Value.str "Domain-DNS", Value.str "domainDNS"))],
          attribute_schema_resolve := [("ATTm3", (Value.str "Common-Name", Value.str "cn"))] }
        [[("ATTc0", Value.int 655427), ("ATTm3", Value.str "X")]] true =
      [[((Value.str "Common-Name", Value.str "cn"), Value.str "X")]] ∧
    ([] : List SerializedRec) ≠
      [[((Value.str "Common-Name", Value.str "cn"), Value.str "X")]] :=
  ⟨fun st records skip_deleted => foldl_const _ _, by decide, by decide⟩
